import Mathlib

/- Shallow embedding of ooi_data_processing_library.py (class OOIHydrophoneData
   and class Spectrogram).  Sample values are rationals; timestamps are
   rational seconds in the spectral part and integer sample ticks (one tick =
   one sample period) in the acquisition part. -/

/-! ## Spectrogram data model and the spectral pipeline
    (compute_spectrogram, lines 713-798; compute_spectrogram_mp, lines
    800-870; class Spectrogram, lines 1015-1041) -/

/-- Spectrogram record: time bins, frequency bins and one value row per time
    bin (class Spectrogram, lines 1038-1041 of the source). -/
structure Sgram where
  time : List ℚ
  freq : List ℚ
  values : List (List ℚ)
deriving DecidableEq

/-- The periodogram loop of compute_spectrogram in periodogram mode
    (avg_time = None branch, source lines 750-761).  `P` abstracts
    scipy.signal.periodogram followed by the per-block calibration and dB
    conversion of line 759 (a map on the block of L samples); `n` is the
    current block index, the second argument counts the remaining loop
    iterations.  If a block's bin count differs from int(L/2)+1 the loop
    aborts and the spectrogram becomes None (lines 753-757), modelled by
    `none`. -/
def specLoop (P : List ℚ → List ℚ) (fs : ℚ) (L : ℕ) (start : ℚ)
    (samples : List ℚ) : ℕ → ℕ → Option (List ℚ × List (List ℚ))
  | _, 0 => some ([], [])
  | n, k+1 =>
    let Pxx := P ((samples.drop (n*L)).take L)
    if Pxx.length = L/2 + 1 then
      match specLoop P fs L start samples (n+1) k with
      | some (ts, vs) => some ((start + (((n*L : ℕ) : ℚ))/fs) :: ts, Pxx :: vs)
      | none => none
    else none

/-- compute_spectrogram in periodogram mode (source lines 713-798 with
    avg_time = None): nbins = int(len(data)/L) (line 744), the loop runs over
    range(nbins - 1) (line 751), time bin n is starttime + n*L/fs seconds
    (line 761), and an empty time list yields spectrogram = None (lines
    791-795).  `freqAxis` abstracts the frequency vector f returned by scipy
    for the fixed pair (fs, L). -/
def computeSpectrogram (freqAxis : List ℚ) (P : List ℚ → List ℚ) (fs : ℚ)
    (L : ℕ) (start : ℚ) (samples : List ℚ) : Option Sgram :=
  let nbins := samples.length / L
  match specLoop P fs L start samples 0 (nbins - 1) with
  | none => none
  | some (ts, vs) => if ts.isEmpty then none else some ⟨ts, freqAxis, vs⟩

/-- The reduction step of compute_spectrogram_mp (source lines 858-864): the
    chunk spectrograms' time lists and value rows are concatenated in chunk
    order and the frequency axis is taken from specgram_list[0]; an empty list
    raises IndexError which the surrounding except turns into a None
    spectrogram (lines 866-870). -/
def reduceChunks : List Sgram → Option Sgram
  | [] => none
  | c :: cs =>
    some ⟨((c :: cs).map Sgram.time).flatten, c.freq,
          ((c :: cs).map Sgram.values).flatten⟩

/-- compute_spectrogram_mp (source lines 800-870): each chunk (a start time
    and its samples) is analysed by compute_spectrogram in a worker
    (_spectrogram_mp_helper, lines 1006-1008) and the results are reduced; a
    chunk whose spectrogram is None makes the reduction raise
    AttributeError, caught at lines 866-870 and turned into None, modelled by
    the Option bind. -/
def computeSpectrogramMp (freqAxis : List ℚ) (P : List ℚ → List ℚ) (fs : ℚ)
    (L : ℕ) (chunks : List (ℚ × List ℚ)) : Option Sgram :=
  (chunks.mapM (fun c => computeSpectrogram freqAxis P fs L c.1 c.2)).bind reduceChunks

/-- The chunk-aligned split of compute_spectrogram_mp (split branch, source
    lines 839-853): the span is cut into m chunks of clen samples each, chunk
    k starting at starttime + k*clen/fs seconds. -/
def splitChunks (start : ℚ) (fs : ℚ) (clen : ℕ) (samples : List ℚ)
    (m : ℕ) : List (ℚ × List ℚ) :=
  (List.range m).map
    (fun k => (start + (((k*clen : ℕ) : ℚ))/fs, (samples.drop (k*clen)).take clen))

/-- C2: the claim says periodogram mode yields exactly floor(n/L) time bins,
    discarding only a trailing remainder shorter than L.  On an 8-sample
    stream with L = 2 (so n = 4*L exactly) the code computes only 3
    periodograms because the loop runs over range(nbins - 1): the last full
    block is dropped as well, contradicting the code's own comment at lines
    748-749. -/
theorem c2_last_full_block_dropped :
    (computeSpectrogram [0, 1] (fun b => b) 1 2 0
        [1, 2, 3, 4, 5, 6, 7, 8]).map (fun s => s.time.length) = some 3 ∧
      ([1, 2, 3, 4, 5, 6, 7, 8] : List ℚ).length / 2 = 4 := by
  constructor
  · rfl
  · rfl

/-- C1: the claim says the parallel computation over aligned chunks is
    bin-identical to the single-threaded one.  On an 8-sample stream with
    L = 2, fs = 1, split into 2 aligned chunks of 4 samples, the single run
    yields 3 time bins while the concatenated 2-chunk run yields 2 (each
    chunk's loop drops that chunk's final block), so the outputs differ. -/
theorem c1_parallel_not_equivalent :
    (computeSpectrogramMp [0, 1] (fun b => b) 1 2
        (splitChunks 0 1 4 [1, 2, 3, 4, 5, 6, 7, 8] 2)).map (fun s => s.time.length)
        = some 2 ∧
      (computeSpectrogram [0, 1] (fun b => b) 1 2 0
        [1, 2, 3, 4, 5, 6, 7, 8]).map (fun s => s.time.length) = some 3 ∧
      computeSpectrogramMp [0, 1] (fun b => b) 1 2
        (splitChunks 0 1 4 [1, 2, 3, 4, 5, 6, 7, 8] 2)
      ≠ computeSpectrogram [0, 1] (fun b => b) 1 2 0 [1, 2, 3, 4, 5, 6, 7, 8] := by
  refine ⟨rfl, rfl, fun h => ?_⟩
  have h2 : (computeSpectrogramMp [0, 1] (fun b => b) 1 2
        (splitChunks 0 1 4 [1, 2, 3, 4, 5, 6, 7, 8] 2)).map (fun s => s.time.length)
      = (computeSpectrogram [0, 1] (fun b => b) 1 2 0
        [1, 2, 3, 4, 5, 6, 7, 8]).map (fun s => s.time.length) := by rw [h]
  rw [show (computeSpectrogramMp [0, 1] (fun b => b) 1 2
        (splitChunks 0 1 4 [1, 2, 3, 4, 5, 6, 7, 8] 2)).map (fun s => s.time.length)
      = some 2 from rfl,
    show (computeSpectrogram [0, 1] (fun b => b) 1 2 0
        [1, 2, 3, 4, 5, 6, 7, 8]).map (fun s => s.time.length) = some 3 from rfl] at h2
  exact absurd h2 (by simp)

/-- C5 counterexample: the claim says the reduction validates that the
    frequency bins agree across chunks and fails when they differ.  Two chunk
    spectrograms with different frequency axes are reduced without any
    failure, and the frequency axis of the first chunk is used. -/
theorem c5_mismatched_freq_not_rejected :
    (reduceChunks [⟨[0], [0, 1], [[5, 6]]⟩, ⟨[2], [0, 2], [[7, 8]]⟩]).isSome = true ∧
      reduceChunks [⟨[0], [0, 1], [[5, 6]]⟩, ⟨[2], [0, 2], [[7, 8]]⟩]
        = some ⟨[0, 2], [0, 1], [[5, 6], [7, 8]]⟩ ∧
      ([0, 1] : List ℚ) ≠ [0, 2] := by
  refine ⟨rfl, rfl, by decide⟩

/-- C5 amended: the reduction performs no frequency-axis validation.  For any
    nonempty list of chunk spectrograms, whatever their frequency axes, it
    succeeds, concatenates every chunk's time bins and value rows in chunk
    order, and takes the frequency axis from the first chunk. -/
theorem c5_reduction_unvalidated (c : Sgram) (cs : List Sgram) :
    ∃ s, reduceChunks (c :: cs) = some s ∧ s.freq = c.freq ∧
      s.time = ((c :: cs).map Sgram.time).flatten ∧
      s.values = ((c :: cs).map Sgram.values).flatten ∧
      s.time.length = ((c :: cs).map (fun x => x.time.length)).sum ∧
      s.values.length = ((c :: cs).map (fun x => x.values.length)).sum := by
  refine ⟨_, rfl, rfl, rfl, rfl, ?_, ?_⟩ <;>
    (rw [List.length_flatten, List.map_map]; rfl)

/-! ## Segment selection (get_acoustic_data lines 285-303,
    get_acoustic_data_conc lines 571-613) -/

/-- The inclusion test of the selection loops (source lines 301-303 and
    588-590): a file with start time a and inferred stop time b is kept for
    the window [s, e) when
    (a >= s and a < e) or (b >= s and b < e) or (a <= s and b >= e).
    Times are integer ticks. -/
def segmentSelected (a b s e : ℤ) : Bool :=
  decide ((s ≤ a ∧ a < e) ∨ (s ≤ b ∧ b < e) ∨ (a ≤ s ∧ e ≤ b))

/-- The covering interval [a, b) meets the requested window [s, e). -/
def intervalsOverlap (a b s e : ℤ) : Prop :=
  max a s < min b e

/-- C4 counterexample: the claim says a descriptor is included iff its
    covering interval intersects the requested window.  A segment covering
    [0, 5) is selected for the window [5, 10) although the two intervals are
    disjoint (its inferred end time equals the window start). -/
theorem c4_end_at_start_still_selected :
    segmentSelected 0 5 5 10 = true ∧ ¬ intervalsOverlap 0 5 5 10 := by
  unfold segmentSelected intervalsOverlap
  decide

/-- C4 amended: for a nonempty covering interval and a nonempty window, a
    descriptor is selected if and only if its covering interval intersects
    the window or its inferred end time equals the window start. -/
theorem c4_selection_iff_overlap_or_touch (a b s e : ℤ) (hab : a < b)
    (hse : s < e) :
    segmentSelected a b s e = true ↔ (intervalsOverlap a b s e ∨ b = s) := by
  simp only [segmentSelected, intervalsOverlap, decide_eq_true_eq]
  omega

/-- Witness for c4_selection_iff_overlap_or_touch at a = 0, b = 5, s = 3,
    e = 10. -/
theorem c4_selection_iff_witness :
    (0 : ℤ) < 5 ∧ (3 : ℤ) < 10 ∧
      (segmentSelected 0 5 3 10 = true ↔ (intervalsOverlap 0 5 3 10 ∨ (5 : ℤ) = 3)) :=
  ⟨by decide, by decide, c4_selection_iff_overlap_or_touch 0 5 3 10 (by decide) (by decide)⟩

/-! ## Seed-file ceiling (get_acoustic_data lines 260-275) -/

/-- Final caller-visible flags self.data and self.data_available of
    OOIHydrophoneData. -/
structure AcqOutcome where
  data : Option (List ℚ)
  dataAvailable : Option Bool
deriving DecidableEq

/-- The URL-list phase of get_acoustic_data (source lines 260-275): with
    limit_seed_files set, a day list longer than 1000 entries aborts with
    self.data = None and self.data_available = False (lines 260-267);
    otherwise the list is filtered to the entries recognised as .mseed files
    (lines 269-275, abstracted by the test isMseed). -/
def urlLimitPhase {α : Type} (limitSeedFiles : Bool) (urls : List α)
    (isMseed : α → Bool) : Except AcqOutcome (List α) :=
  if limitSeedFiles ∧ 1000 < urls.length then .error ⟨none, some false⟩
  else .ok (urls.filter isMseed)

/-- C8: with the default limit_seed_files = True, any request whose candidate
    URL count exceeds 1000 aborts before fetching, with data = None and
    data_available = False. -/
theorem c8_too_many_segments_aborts {α : Type} (urls : List α)
    (isMseed : α → Bool) (h : 1000 < urls.length) :
    urlLimitPhase true urls isMseed = .error ⟨none, some false⟩ := by
  simp [urlLimitPhase, h]

/-- Witness for c8_too_many_segments_aborts on a day with 1001 entries. -/
theorem c8_too_many_segments_witness :
    1000 < (List.replicate 1001 (0 : ℕ)).length ∧
      urlLimitPhase true (List.replicate 1001 (0 : ℕ)) (fun _ => true)
        = .error ⟨none, some false⟩ :=
  ⟨by rw [List.length_replicate]; norm_num,
   c8_too_many_segments_aborts _ _ (by rw [List.length_replicate]; norm_num)⟩

/-! ## The valid-URL selection loop of get_acoustic_data_conc
    (source lines 567-613) -/

/-- A catalog entry: an opaque file identity and the start time parsed from
    its name (UTCDateTime of lines 575, 579), in integer ticks. -/
structure UrlEntry where
  tag : ℕ
  start : ℤ
deriving DecidableEq

/-- The inferred stop time of the current file (source lines 577-585): the
    next file's start time, or for the last entry the end-of-day value
    obtained by setting hour/minute/second/microsecond, abstracted by the
    map eod on the entry's start time. -/
def stopOf (eod : ℤ → ℤ) (d : UrlEntry) (rest : List UrlEntry) : ℤ :=
  match rest with
  | [] => eod d.start
  | d2 :: _ => d2.start

/-- The selection loop of get_acoustic_data_conc (source lines 567-613).
    State: prev is the previous entry (none at i = 0), ff is first_file,
    valid is valid_data_url_list; the fourth argument is the remaining part
    of data_url_list.  Matching entries are appended (with the i = 0,
    first-file-reset and append variants of lines 592-605); the first
    non-matching entry after a match appends one padding entry when append
    is set and breaks (lines 608-613). -/
def selGo (s e : ℤ) (eod : ℤ → ℤ) (ap : Bool) :
    Option UrlEntry → Bool → List UrlEntry → List UrlEntry → List UrlEntry
  | _, _, valid, [] => valid
  | prev, ff, valid, d :: rest =>
    if segmentSelected d.start (stopOf eod d rest) s e then
      match prev with
      | none => selGo s e eod ap (some d) false (valid ++ [d]) rest
      | some p =>
        if ap then
          if ff then selGo s e eod ap (some d) false [p, d] rest
          else selGo s e eod ap (some d) false (valid ++ [d]) rest
        else selGo s e eod ap (some d) ff (valid ++ [d]) rest
    else
      if ff then selGo s e eod ap (some d) ff valid rest
      else if ap then valid ++ [d] else valid

/-- valid_data_url_list as built by get_acoustic_data_conc from the full
    data_url_list. -/
def selectValidUrls (s e : ℤ) (eod : ℤ → ℤ) (ap : Bool)
    (urls : List UrlEntry) : List UrlEntry :=
  selGo s e eod ap none true [] urls

/-- Loop invariant: if the accumulated list is a sublist of the already
    consumed part of the catalog (pre followed by the pending previous
    entry), the final result is a sublist of the whole catalog. -/
theorem selGo_sublist (s e : ℤ) (eod : ℤ → ℤ) (ap : Bool) :
    ∀ (rest : List UrlEntry) (prev : Option UrlEntry) (ff : Bool)
      (valid pre : List UrlEntry),
      List.Sublist valid (pre ++ prev.toList) →
      List.Sublist (selGo s e eod ap prev ff valid rest) ((pre ++ prev.toList) ++ rest) := by
  intro rest
  induction rest with
  | nil =>
    intro prev ff valid pre h
    simpa using h
  | cons d rest ih =>
    intro prev ff valid pre h
    simp only [selGo]
    by_cases h1 : segmentSelected d.start (stopOf eod d rest) s e
    · simp only [h1, if_true]
      cases prev with
      | none =>
        simp only [Option.toList_none, List.append_nil] at h
        have h3 := ih (some d) false (valid ++ [d]) pre
          (by simpa using h.append (List.Sublist.refl [d]))
        simpa [List.append_assoc] using h3
      | some p =>
        by_cases h2 : ap
        · simp only [h2, if_true]
          by_cases h3 : ff
          · simp only [h3, if_true]
            have h4 := ih (some d) false [p, d] (pre ++ [p])
              (by
                simp only [List.append_assoc, List.cons_append, List.nil_append]
                exact List.sublist_append_right pre [p, d])
            simpa [List.append_assoc, h2] using h4
          · simp only [h3, if_false]
            have h4 := ih (some d) false (valid ++ [d]) (pre ++ [p])
              (by simpa using h.append (List.Sublist.refl [d]))
            simpa [List.append_assoc, h2] using h4
        · simp only [h2, if_false]
          have h4 := ih (some d) ff (valid ++ [d]) (pre ++ [p])
            (by simpa using h.append (List.Sublist.refl [d]))
          simpa [List.append_assoc, h2] using h4
    · simp only [h1, if_false]
      by_cases h2 : ff
      · simp only [h2, if_true]
        have h3 := ih (some d) ff valid (pre ++ prev.toList)
          (by simpa using h.trans (List.sublist_append_left _ [d]))
        simpa [List.append_assoc, h2] using h3
      · simp only [h2, if_false]
        by_cases h3 : ap
        · simp only [h3, if_true]
          exact h.append (List.cons_sublist_cons.mpr (List.nil_sublist rest))
        · simp only [h3, if_false]
          exact h.trans (List.sublist_append_left _ (d :: rest))

/-- C9: for any catalog whose entries have strictly increasing start times,
    the valid URL list built by the selection loop (padding included) is an
    order-preserving sublist of the catalog, has no duplicates, and is
    strictly increasing in start time. -/
theorem c9_selection_is_ordered_subsequence (s e : ℤ) (eod : ℤ → ℤ)
    (ap : Bool) (urls : List UrlEntry)
    (hmono : urls.Pairwise (fun x y => x.start < y.start)) :
    List.Sublist (selectValidUrls s e eod ap urls) urls ∧
      (selectValidUrls s e eod ap urls).Nodup ∧
      (selectValidUrls s e eod ap urls).Pairwise (fun x y => x.start < y.start) := by
  have hsub : List.Sublist (selectValidUrls s e eod ap urls) urls := by
    have h := selGo_sublist s e eod ap urls none true [] [] (by simp)
    simpa [selectValidUrls] using h
  refine ⟨hsub, ?_, List.Pairwise.sublist hsub hmono⟩
  have hne : (selectValidUrls s e eod ap urls).Pairwise (fun x y => x ≠ y) :=
    (List.Pairwise.sublist hsub hmono).imp (fun hlt heq => by
      rw [heq] at hlt; exact lt_irrefl _ hlt)
  exact hne

/-- Witness for c9_selection_is_ordered_subsequence on a three-entry catalog
    and the window [3, 9). -/
theorem c9_selection_witness :
    ([⟨0, 0⟩, ⟨1, 4⟩, ⟨2, 8⟩] : List UrlEntry).Pairwise
        (fun x y => x.start < y.start) ∧
      (List.Sublist
          (selectValidUrls 3 9 (fun t => t + 100) true [⟨0, 0⟩, ⟨1, 4⟩, ⟨2, 8⟩])
          [⟨0, 0⟩, ⟨1, 4⟩, ⟨2, 8⟩] ∧
        (selectValidUrls 3 9 (fun t => t + 100) true
          [⟨0, 0⟩, ⟨1, 4⟩, ⟨2, 8⟩]).Nodup ∧
        (selectValidUrls 3 9 (fun t => t + 100) true
          [⟨0, 0⟩, ⟨1, 4⟩, ⟨2, 8⟩]).Pairwise (fun x y => x.start < y.start)) :=
  ⟨by simp, c9_selection_is_ordered_subsequence 3 9 (fun t => t + 100) true _ (by simp)⟩

/-! ## Post-fetch merge phases (get_acoustic_data_mp lines 427-449,
    get_acoustic_data_conc lines 624-652) -/

/-- Python exception kinds raised by the merge phases when every fetched
    segment is missing. -/
inductive PyErr
  | indexError
  | attributeError
deriving DecidableEq

/-- The post-fetch phase of get_acoustic_data_mp (source lines 427-449) on
    the positional fetch result.  The all-None branch (lines 428-433) prints,
    sets self.data = None and self.data_available = False but does not
    return; the None entries are then filtered out (lines 437-440) and line
    444 evaluates data_list[0], which raises IndexError on the now-empty
    list.  An error carries the (data, data_available) state at the moment
    of the raise.  In the successful branch the obspy concatenation and
    merge of lines 444-460 are summarised as concatenation of the decoded
    sample lists with the flags set at lines 459-460. -/
def mergePhaseMp (dataList : List (Option (List ℚ))) :
    Except (PyErr × AcqOutcome) AcqOutcome :=
  let o1 : AcqOutcome :=
    if dataList.all (fun x => x.isNone) then ⟨none, some false⟩ else ⟨none, none⟩
  match dataList.filterMap id with
  | [] => .error (.indexError, o1)
  | st :: rest => .ok ⟨some ((st :: rest).flatten), some true⟩

/-- The accumulation of st_all in get_acoustic_data_conc (source lines
    625-631): all non-None streams are folded together; when every entry is
    None, st_all remains None. -/
def concStAll (stList : List (Option (List ℚ))) : Option (List ℚ) :=
  stList.foldl
    (fun acc st =>
      match st with
      | some s => match acc with | none => some s | some a => some (a ++ s)
      | none => acc)
    none

/-- The merge phase of get_acoustic_data_conc (source lines 633-652): for
    data_gap_mode 0, 1 or 2 the code calls st_all.merge(...), which raises
    AttributeError when st_all is still None; any other mode prints Invalid
    Data Gap Mode and returns None before touching st_all (lines 650-652).
    The successful branch (merge, slice, filter of lines 636-675) is
    summarised as success carrying the merged samples. -/
def concMergePhase (stList : List (Option (List ℚ))) (gapMode : ℕ) :
    Except (PyErr × AcqOutcome) AcqOutcome :=
  match concStAll stList with
  | none =>
    if gapMode ≤ 2 then .error (.attributeError, ⟨none, none⟩)
    else .ok ⟨none, none⟩
  | some s =>
    if gapMode ≤ 2 then .ok ⟨some s, some true⟩
    else .ok ⟨none, none⟩

/-- C6: the claim says that when every selected segment fails to fetch or
    decode, the operation fails with the typed NoDataAvailable outcome
    (data = None, data_available = False) rather than crashing.  On the
    all-None fetch result [None, None], get_acoustic_data_mp raises
    IndexError at data_list[0] (after having set the flags) and
    get_acoustic_data_conc raises AttributeError at st_all.merge; neither
    returns the typed outcome. -/
theorem c6_all_failures_crash :
    mergePhaseMp [none, none] = .error (.indexError, ⟨none, some false⟩) ∧
      concMergePhase [none, none] 0 = .error (.attributeError, ⟨none, none⟩) := by
  constructor
  · rfl
  · rfl

/-! ## Gap handling mode 2 of get_acoustic_data_conc (source lines 641-647) -/

/-- np.mean of a masked array (source line 644): the mean of the non-masked
    entries only. -/
def maskedMean (data : List (Option ℚ)) : ℚ :=
  (data.filterMap id).sum / ((data.filterMap id).length : ℚ)

/-- Data gap mode 2 of get_acoustic_data_conc (source lines 642-647): after
    merging with method=1, the masked-array mean is subtracted (masked
    positions stay masked through the subtraction), the fill value is set to
    0 and the array is filled, replacing masked positions by 0. -/
def gapMode2Fill (data : List (Option ℚ)) : List ℚ :=
  data.map
    (fun x =>
      match x with
      | some v => v - maskedMean data
      | none => 0)

/-- A numpy array as seen by the isinstance(..., np.ma.core.MaskedArray)
    test of source line 656: either still masked or a plain filled array. -/
inductive NpArr
  | masked (vals : List (Option ℚ))
  | plain (vals : List ℚ)

/-- The isinstance masked-array test of source line 656. -/
def isMaskedArr : NpArr → Bool
  | .masked _ => true
  | .plain _ => false

/-- Mode 2 produces a plain (filled) array (np.ma.filled, source line
    647). -/
def applyGapMode2 (data : List (Option ℚ)) : NpArr :=
  .plain (gapMode2Fill data)

/-- self.data_gap after the merge (source lines 656-658): set only when the
    sliced data is still a masked array. -/
def dataGapFlagAfter (a : NpArr) : Bool :=
  isMaskedArr a

/-- Helper: pairing a list with its image under a map and keeping the image
    at the originally valid positions gives the map over the valid values. -/
theorem zip_map_valid (f : Option ℚ → ℚ) :
    ∀ data : List (Option ℚ),
      (data.zip (data.map f)).filterMap
          (fun p => match p.1 with | some _ => some p.2 | none => none)
        = (data.filterMap id).map (fun v => f (some v)) := by
  intro data
  induction data with
  | nil => rfl
  | cons x xs ih =>
    cases x with
    | none => simpa using ih
    | some v => simpa using ih

/-- Helper: subtracting a constant from every entry shifts the sum by the
    length times the constant. -/
theorem sum_map_sub_const (m : ℚ) :
    ∀ l : List ℚ, (l.map (fun v => v - m)).sum = l.sum - l.length * m := by
  intro l
  induction l with
  | nil => simp
  | cons x xs ih =>
    simp [ih]
    ring

/-- C7: under gap mode 2, the sum (hence the mean) of the corrected values
    at the originally valid positions is exactly 0, every gap position is 0
    in the output, and the data_gap flag stays false because the filled
    array is no longer masked. -/
theorem c7_zero_filled_demeaned (data : List (Option ℚ))
    (h : data.filterMap id ≠ []) :
    ((data.zip (gapMode2Fill data)).filterMap
        (fun p => match p.1 with | some _ => some p.2 | none => none)).sum = 0 ∧
      (∀ i : ℕ, data[i]? = some none → (gapMode2Fill data)[i]? = some 0) ∧
      dataGapFlagAfter (applyGapMode2 data) = false := by
  refine ⟨?_, ?_, rfl⟩
  · have h1 := zip_map_valid
      (fun x => match x with | some v => v - maskedMean data | none => 0) data
    rw [gapMode2Fill, h1]
    have h2 := sum_map_sub_const (maskedMean data) (data.filterMap id)
    simp only at h2
    rw [h2, maskedMean]
    have h3 : ((data.filterMap id).length : ℚ) ≠ 0 := by
      have h5 : 0 < (data.filterMap id).length := List.length_pos.mpr h
      exact Nat.cast_ne_zero.mpr (Nat.pos_iff_ne_zero.mp h5)
    field_simp
  · intro i hi
    rw [gapMode2Fill, List.getElem?_map, hi]
    rfl

/-- Witness for c7_zero_filled_demeaned on the masked stream
    [3, gap, 5]. -/
theorem c7_zero_filled_witness :
    ([some 3, none, some 5] : List (Option ℚ)).filterMap id ≠ [] ∧
      (((([some 3, none, some 5] : List (Option ℚ)).zip
            (gapMode2Fill [some 3, none, some 5])).filterMap
          (fun p => match p.1 with | some _ => some p.2 | none => none)).sum = 0 ∧
        (∀ i : ℕ, ([some 3, none, some 5] : List (Option ℚ))[i]? = some none →
          (gapMode2Fill [some 3, none, some 5])[i]? = some 0) ∧
        dataGapFlagAfter (applyGapMode2 [some 3, none, some 5]) = false) :=
  ⟨by simp, c7_zero_filled_demeaned [some 3, none, some 5] (by simp)⟩

/-! ## MergeEngine and WindowSlicer
    In the source these stages are delegated to obspy (st_all.merge and
    st_all.slice, lines 633-654), whose code is not part of this
    repository; they are modelled from spec sections 4.4 and 4.5.  Time is
    measured in integer sample ticks (one tick = one sample period), so the
    requested window [s, e) holds exactly e - s sample positions and
    round((e-s)*sample_rate) = e - s. -/

/-- Modelled from the spec: a DecodedSegment, the (start-time, sample-rate,
    sample-array) triple produced by the external decoder (spec section 3),
    with times in sample ticks. -/
structure DecSeg where
  start : ℤ
  samples : List ℚ
deriving DecidableEq

/-- Modelled from the spec: the sample a segment holds at tick t, if any. -/
def segAt (g : DecSeg) (t : ℤ) : Option ℚ :=
  if g.start ≤ t then g.samples[(t - g.start).toNat]? else none

/-- Modelled from the spec: the merged stream's sample at tick t; on
    overlap the later segment in the time-ordered list wins (spec section
    4.4: later data wins), and a tick no segment covers is a gap. -/
def valueAt (segs : List DecSeg) (t : ℤ) : Option ℚ :=
  segs.foldl
    (fun acc g => match segAt g t with | some v => some v | none => acc)
    none

/-- First tick covered by the merged stream. -/
def mergeStart (g0 : DecSeg) (gs : List DecSeg) : ℤ :=
  gs.foldl (fun m g => min m g.start) g0.start

/-- One past the last tick a segment covers. -/
def segEnd (g : DecSeg) : ℤ :=
  g.start + g.samples.length

/-- One past the last tick covered by the merged stream. -/
def mergeEnd (g0 : DecSeg) (gs : List DecSeg) : ℤ :=
  gs.foldl (fun m g => max m (segEnd g)) (segEnd g0)

/-- Modelled from the spec: a merged (gap-aware) sample stream; a none entry
    is a gap position (spec section 4.4). -/
structure MTrace where
  start : ℤ
  vals : List (Option ℚ)
deriving DecidableEq

/-- Modelled from the spec: the merged stream spanning from the earliest
    segment start to the latest segment end. -/
def mergedVals (g0 : DecSeg) (gs : List DecSeg) : List (Option ℚ) :=
  (List.range (mergeEnd g0 gs - mergeStart g0 gs).toNat).map
    (fun (i : ℕ) => valueAt (g0 :: gs) (mergeStart g0 gs + (i : ℤ)))

/-- Modelled from the spec: MergeEngine on the None-filtered decoded
    segments; an empty input fails with NoDataAvailable (spec section
    4.4). -/
def mergeSegs : List DecSeg → Option MTrace
  | [] => none
  | g0 :: gs => some ⟨mergeStart g0 gs, mergedVals g0 gs⟩

/-- The three gap policies of spec section 3 (GapPolicy), data_gap_mode
    0/1/2 of the source. -/
inductive GapPolicy
  | interpolate
  | flagged
  | zeroFilledDemeaned
deriving DecidableEq

/-- The valid sample stored at index j, if any. -/
def valAt (vals : List (Option ℚ)) (j : ℕ) : Option ℚ :=
  (vals[j]?).bind id

/-- The nearest valid entry at or before index i. -/
def prevValid (vals : List (Option ℚ)) (i : ℕ) : Option (ℕ × ℚ) :=
  (((List.range (i+1)).reverse).filterMap
    (fun j => (valAt vals j).map (fun v => (j, v)))).head?

/-- The nearest valid entry at or after index i. -/
def nextValid (vals : List (Option ℚ)) (i : ℕ) : Option (ℕ × ℚ) :=
  (((List.range vals.length).drop i).filterMap
    (fun j => (valAt vals j).map (fun v => (j, v)))).head?

/-- Modelled from the spec: linear interpolation across a gap between the
    valid samples immediately before and after it (spec section 4.4,
    Interpolate); an edge gap takes the nearest valid value. -/
def interpAt (vals : List (Option ℚ)) (i : ℕ) : ℚ :=
  match valAt vals i with
  | some v => v
  | none =>
    match prevValid vals i, nextValid vals i with
    | some pv, some nv =>
      pv.2 + (nv.2 - pv.2) * (((i : ℚ)) - (pv.1 : ℚ)) / ((nv.1 : ℚ) - (pv.1 : ℚ))
    | some pv, none => pv.2
    | none, some nv => nv.2
    | none, none => 0

/-- Modelled from the spec: the uniform application of a gap policy over the
    merged stream (spec section 4.4); Flagged keeps gap positions marked
    invalid, Interpolate fills them by linear interpolation, and
    ZeroFilledDemeaned de-means the valid samples and zero-fills the rest
    (the same computation as gapMode2Fill, source lines 642-647). -/
def applyGapPolicy : GapPolicy → List (Option ℚ) → List (Option ℚ)
  | .interpolate, vals => (List.range vals.length).map (fun i => some (interpAt vals i))
  | .flagged, vals => vals
  | .zeroFilledDemeaned, vals => (gapMode2Fill vals).map some

/-- Modelled from the spec: WindowSlicer restricted to [s, e) in ticks (spec
    section 4.5). -/
def sliceVals (tr : MTrace) (s e : ℤ) : List (Option ℚ) :=
  (tr.vals.drop (s - tr.start).toNat).take (e - s).toNat

/-- Modelled from the spec: the merged-and-sliced assembly of spec sections
    4.4-4.5, as performed by get_acoustic_data / get_acoustic_data_conc via
    obspy merge and slice (source lines 633-654). -/
def assembleTrace (policy : GapPolicy) (segs : List DecSeg) (s e : ℤ) :
    Option MTrace :=
  (mergeSegs segs).map
    (fun tr => ⟨s, sliceVals ⟨tr.start, applyGapPolicy policy tr.vals⟩ s e⟩)

/-- Every gap policy preserves the number of sample positions. -/
theorem applyGapPolicy_length (p : GapPolicy) (vals : List (Option ℚ)) :
    (applyGapPolicy p vals).length = vals.length := by
  cases p <;> simp [applyGapPolicy, gapMode2Fill]

/-- C3: for every nonempty list of decoded segments whose merged span covers
    the requested window [s, e), and under every one of the three gap
    policies, the assembled trace has exactly e - s samples — in ticks,
    round((e-s) * sample_rate) = e - s. -/
theorem c3_sliced_length (policy : GapPolicy) (g0 : DecSeg) (gs : List DecSeg)
    (s e : ℤ) (h1 : mergeStart g0 gs ≤ s) (h2 : s ≤ e)
    (h3 : e ≤ mergeEnd g0 gs) :
    ∃ out : MTrace, assembleTrace policy (g0 :: gs) s e = some out ∧
      out.vals.length = (e - s).toNat := by
  refine ⟨_, rfl, ?_⟩
  have h4 : (mergedVals g0 gs).length = (mergeEnd g0 gs - mergeStart g0 gs).toNat := by
    rw [mergedVals, List.length_map, List.length_range]
  simp only [sliceVals, List.length_take, List.length_drop,
    applyGapPolicy_length, h4]
  omega

/-- Witness for c3_sliced_length: segments [1,2,3] at tick 0 and [4,5] at
    tick 5 (a two-tick gap), window [1, 6), flagged policy. -/
theorem c3_sliced_length_witness :
    mergeStart ⟨0, [1, 2, 3]⟩ [⟨5, [4, 5]⟩] ≤ 1 ∧ (1 : ℤ) ≤ 6 ∧
      (6 : ℤ) ≤ mergeEnd ⟨0, [1, 2, 3]⟩ [⟨5, [4, 5]⟩] ∧
      ∃ out : MTrace,
        assembleTrace .flagged [⟨0, [1, 2, 3]⟩, ⟨5, [4, 5]⟩] 1 6 = some out ∧
          out.vals.length = ((6 : ℤ) - 1).toNat :=
  ⟨by decide, by decide, by decide,
   c3_sliced_length .flagged ⟨0, [1, 2, 3]⟩ [⟨5, [4, 5]⟩] 1 6
     (by decide) (by decide) (by decide)⟩

/-! ## Frequency-dependent sensitivity correction
    (_freq_dependent_sensitivity_correct, source lines 186-200) -/

/-- np.linspace(a, b, N) (source line 198): N evenly spaced points from a to
    b inclusive; N = 1 gives [a] and N = 0 gives []. -/
def linspace (a b : ℚ) (N : ℕ) : List ℚ :=
  (List.range N).map
    (fun (i : ℕ) => if N ≤ 1 then a else a + (b - a) * ((i : ℕ) : ℚ) / ((N : ℚ) - 1))

/-- The fixed calibration frequencies f_calib (source line 195). -/
def fCalib : List ℚ :=
  [0, 13500, 27100, 40600, 54100]

/-- The fixed calibration sensitivities sens_calib (source line 196). -/
def sensCalib : List ℚ :=
  [169, 169.4, 168.1, 169.7, 171.5]

/-- _freq_dependent_sensitivity_correct (source lines 186-200): the
    interpolating spline through the five calibration points — abstracted
    here as any function spl through that table, since the spline solver is
    scipy internals — evaluated at np.linspace(0, 32000, N).  The data's
    sampling rate and actual frequency bins never enter. -/
def freqSensitivityCorrect (spl : ℚ → ℚ) (N : ℕ) : List ℚ :=
  (linspace 0 32000 N).map spl

/-- C10: for every positive N and every function through the calibration
    table, the correction returns exactly N coefficients, the first at
    frequency 0 and the i-th at 32000*i/(N-1) Hz, depending on nothing but
    N. -/
theorem c10_sensitivity_grid (spl : ℚ → ℚ)
    (hspl : ∀ i, i < fCalib.length →
      spl (fCalib.getD i 0) = sensCalib.getD i 0)
    (N : ℕ) (hN : 0 < N) :
    (freqSensitivityCorrect spl N).length = N ∧
      (freqSensitivityCorrect spl N)[0]? = some (spl 0) ∧
      (∀ i : ℕ, 2 ≤ N → i < N →
        (freqSensitivityCorrect spl N)[i]? =
          some (spl (32000 * ((i : ℕ) : ℚ) / ((N : ℚ) - 1)))) := by
  refine ⟨by rw [freqSensitivityCorrect, List.length_map, linspace,
    List.length_map, List.length_range], ?_, ?_⟩
  · rw [freqSensitivityCorrect, linspace]
    rw [List.getElem?_map, List.getElem?_map, List.getElem?_range hN]
    by_cases hle : N ≤ 1
    · simp [hle]
    · simp [hle]
  · intro i h2 hi
    rw [freqSensitivityCorrect, linspace]
    rw [List.getElem?_map, List.getElem?_map, List.getElem?_range hi]
    have hle : ¬ N ≤ 1 := by omega
    simp [hle]

/-- A concrete function through the calibration table, for the c10
    witness. -/
def splTableFun : ℚ → ℚ :=
  fun x =>
    if x = 0 then 169
    else if x = 13500 then 169.4
    else if x = 27100 then 168.1
    else if x = 40600 then 169.7
    else if x = 54100 then 171.5
    else 0

/-- Witness for c10_sensitivity_grid at N = 3. -/
theorem c10_sensitivity_witness :
    (∀ i, i < fCalib.length →
        splTableFun (fCalib.getD i 0) = sensCalib.getD i 0) ∧ 0 < 3 ∧
      ((freqSensitivityCorrect splTableFun 3).length = 3 ∧
        (freqSensitivityCorrect splTableFun 3)[0]? = some (splTableFun 0) ∧
        (∀ i : ℕ, 2 ≤ 3 → i < 3 →
          (freqSensitivityCorrect splTableFun 3)[i]? =
            some (splTableFun (32000 * ((i : ℕ) : ℚ) / (((3 : ℕ) : ℚ) - 1))))) :=
  ⟨by
    intro i hi
    simp only [fCalib, List.length_cons, List.length_nil] at hi
    interval_cases i <;> norm_num [fCalib, sensCalib, splTableFun],
   by norm_num,
   c10_sensitivity_grid splTableFun
     (by
       intro i hi
       simp only [fCalib, List.length_cons, List.length_nil] at hi
       interval_cases i <;> norm_num [fCalib, sensCalib, splTableFun])
     3 (by norm_num)⟩
